import Mathlib

/-!
Verification development for a Telegram web-scraping bot.

Shallow embedding of the two core source files:
* `src/app/handlers/handlers.py` — the per-conversation finite-state
  selector-specification builder (aiogram FSM handlers) and the result
  formatter `format_results`;
* `src/core/scraper/bs4_scraper.py` — the `Parser` class: `fetch_page`,
  `extract_by_selector`, `extract_multiple`, `main_parse`.

Python strings are modeled as lists of Unicode code points (`List Char`),
which matches Python's `len`, slicing and concatenation semantics exactly.
The aiogram FSM storage (per-user `state.update_data` keys `url`,
`current_selector`, `selector_value`, `selector_type`) together with the
module-level `user_selectors[user_id]` dictionary form a `Session`.
Dispatch of a text turn is by aiogram's rule: handlers are tried in
registration order and the first whose filters all pass handles the turn.
-/

namespace TgBot

/-- Python `str` as a list of code points. -/
abbrev PyStr := List Char

/-- Embed a Lean string literal as a `PyStr`. -/
def py (s : String) : PyStr := s.data

/-- Python `str.strip()` (restricted to the ASCII whitespace actually seen
by the bot; Python also strips some exotic Unicode spaces). -/
def pyStrip (s : PyStr) : PyStr :=
  ((s.dropWhile Char.isWhitespace).reverse.dropWhile Char.isWhitespace).reverse

/-- Python `str.lower()` on one code point, for the Latin and Cyrillic
letters the bot works with (`A`–`Z`, `А`–`Я`, `Ё`). -/
def pyLowerChar (c : Char) : Char :=
  if 'A' ≤ c ∧ c ≤ 'Z' then Char.ofNat (c.toNat + 32)
  else if 'А' ≤ c ∧ c ≤ 'Я' then Char.ofNat (c.toNat + 32)
  else if c = 'Ё' then 'ё'
  else c

/-- Python `str.lower()`. -/
def pyLower (s : PyStr) : PyStr := s.map pyLowerChar

/-- Python `str.upper()` on one code point, for the Latin and Cyrillic
letters the bot works with (`a`–`z`, `а`–`я`, `ё`). -/
def pyUpperChar (c : Char) : Char :=
  if 'a' ≤ c ∧ c ≤ 'z' then Char.ofNat (c.toNat - 32)
  else if 'а' ≤ c ∧ c ≤ 'я' then Char.ofNat (c.toNat - 32)
  else if c = 'ё' then 'Ё'
  else c

/-- Python `str.upper()`. -/
def pyUpper (s : PyStr) : PyStr := s.map pyUpperChar

/-- Substring test (used only to formalize the claim-side notion
"the text contains a scheme", via its `://` separator). -/
def containsSub (p l : PyStr) : Bool := l.tails.any (fun s => p.isPrefixOf s)

/-- Python `dict` assignment `d[k] = v` on an association list that keeps
insertion order: an existing key keeps its position and gets the new value,
a new key is appended at the end (CPython `dict` semantics). -/
def dictInsert {α β : Type} [DecidableEq α] (k : α) (v : β) :
    List (α × β) → List (α × β)
  | [] => [(k, v)]
  | (k', v') :: rest =>
    if k' = k then (k, v) :: rest else (k', v') :: dictInsert k v rest

/-- Python `dict` lookup `d.get(k)` on the same representation. -/
def dictGet {α β : Type} [DecidableEq α] (k : α) : List (α × β) → Option β
  | [] => none
  | (k', v) :: rest => if k' = k then some v else dictGet k rest

/-- A value of `user_selectors[user_id]`: either a plain CSS-selector
string or the dict `\x7b'selector': ..., 'attr': ...\x7d` built by
`process_selector_attr` (whose `'selector'` entry is `data.get('selector_value')`
and may be Python `None`). -/
inductive SelVal where
  | strSel (s : PyStr)
  | dictSel (sel : Option PyStr) (attr : PyStr)
deriving DecidableEq

/-- The aiogram FSM states of `ParseSteps`, plus `idle` for "no state set"
(the situation after `state.clear()` or before `/parse`). -/
inductive ParseSteps where
  | idle
  | WAITING_FOR_URL
  | WAITING_FOR_SELECTOR_NAME
  | WAITING_FOR_SELECTOR_VALUE
  | WAITING_FOR_SELECTOR_ATTR
  | CONFIRM_SELECTORS
deriving DecidableEq

/-- One conversation's state: the FSM state, the aiogram FSM data keys
written by the handlers (`url`, `current_selector`, `selector_value`,
`selector_type`), and the module-level `user_selectors[user_id]` dict.
Field names in the spec dict are `Option PyStr` because
`data.get('current_selector')` can be Python `None`, which is a legal
dict key. -/
structure Session where
  fsmState : ParseSteps
  url : Option PyStr
  current_selector : Option PyStr
  selector_value : Option PyStr
  selector_type : Option PyStr
  selectors : List (Option PyStr × SelVal)
deriving DecidableEq

/-- The keyword checked (after strip+lower) by `process_selector_value`. -/
def kwAttr : PyStr := py "атрибут"

/-- The "done" keyword: filter `F.text.lower() == 'готово'` (no strip). -/
def kwDone : PyStr := py "готово"

/-- The "clear" keyword: filter `F.text.lower() == 'очистить'` (no strip). -/
def kwClear : PyStr := py "очистить"

def kwHttp : PyStr := py "http://"

def kwHttps : PyStr := py "https://"

/-- `process_url`: strips the text, prefixes `https://` unless the stripped
text starts with `http://` or `https://`, stores it as `url`, resets
`user_selectors[user_id]` to the empty dict, and moves to
`WAITING_FOR_SELECTOR_NAME`.  The second component of the result counts
calls of `parser.main_parse` made during the turn (always 0 here). -/
def process_url (s : Session) (t : PyStr) : Session × Nat :=
  let user_url := pyStrip t
  let user_url :=
    if kwHttp.isPrefixOf user_url ∨ kwHttps.isPrefixOf user_url then user_url
    else kwHttps ++ user_url
  ({ s with url := some user_url, selectors := [],
            fsmState := ParseSteps.WAITING_FOR_SELECTOR_NAME }, 0)

/-- `process_selector_name`: stores the stripped text as
`current_selector` (no emptiness check in the source) and moves to
`WAITING_FOR_SELECTOR_VALUE`. -/
def process_selector_name (s : Session) (t : PyStr) : Session × Nat :=
  ({ s with current_selector := some (pyStrip t),
            fsmState := ParseSteps.WAITING_FOR_SELECTOR_VALUE }, 0)

/-- `ask_for_next_selector`: replies with the current selectors and sets
the state to `CONFIRM_SELECTORS`. -/
def ask_for_next_selector (s : Session) : Session × Nat :=
  ({ s with fsmState := ParseSteps.CONFIRM_SELECTORS }, 0)

/-- `process_selector_value`: lowers and strips the text; on the keyword
`'атрибут'` it only records `selector_type := 'attr'` and returns (the FSM
state stays `WAITING_FOR_SELECTOR_VALUE`); otherwise it stores the
lowered, stripped text as a plain selector under `current_selector` and
asks for the next selector.  Note the source never reads `selector_type`
back. -/
def process_selector_value (s : Session) (t : PyStr) : Session × Nat :=
  let selector_value := pyLower (pyStrip t)
  if selector_value = kwAttr then
    ({ s with selector_type := some (py "attr") }, 0)
  else
    ask_for_next_selector
      { s with selectors :=
          dictInsert s.current_selector (SelVal.strSel selector_value) s.selectors }

/-- `process_selector_attr`: stores the dict
`\x7b'selector': data.get('selector_value'), 'attr': stripped text\x7d`
under `current_selector` and asks for the next selector. -/
def process_selector_attr (s : Session) (t : PyStr) : Session × Nat :=
  let attr_name := pyStrip t
  ask_for_next_selector
    { s with selectors :=
        dictInsert s.current_selector (SelVal.dictSel s.selector_value attr_name) s.selectors }

/-- `finish_selectors` (reached when the `'готово'` filter matched): with
an empty spec it re-prompts and moves back to `WAITING_FOR_SELECTOR_NAME`;
otherwise it runs `state.clear()` — which erases the FSM state and the
FSM data keys (`url`, `current_selector`, `selector_value`,
`selector_type`) but does NOT touch `user_selectors[user_id]` — and calls
`parser.main_parse(url, selectors)` exactly once (counted in the second
component). -/
def finish_selectors (s : Session) : Session × Nat :=
  if s.selectors = [] then
    ({ s with fsmState := ParseSteps.WAITING_FOR_SELECTOR_NAME }, 0)
  else
    ({ s with url := none, current_selector := none, selector_value := none,
              selector_type := none, fsmState := ParseSteps.idle }, 1)

/-- `clear_selectors` (reached when the `'очистить'` filter matched):
empties `user_selectors[user_id]` and moves to
`WAITING_FOR_SELECTOR_NAME`; the FSM data (notably `url`) is untouched. -/
def clear_selectors (s : Session) : Session × Nat :=
  ({ s with selectors := [], fsmState := ParseSteps.WAITING_FOR_SELECTOR_NAME }, 0)

/-- `add_next_selector`: any other text in `CONFIRM_SELECTORS` becomes the
next field name (stripped) and the FSM moves to
`WAITING_FOR_SELECTOR_VALUE`. -/
def add_next_selector (s : Session) (t : PyStr) : Session × Nat :=
  ({ s with current_selector := some (pyStrip t),
            fsmState := ParseSteps.WAITING_FOR_SELECTOR_VALUE }, 0)

/-- One inbound text turn, dispatched as aiogram does: handlers are tried
in registration order, first full filter match wins.  In particular, in
state `WAITING_FOR_SELECTOR_VALUE` every text message is taken by
`process_selector_value` (registered first, filters `State + F.text`);
the later handler `process_selector_for_attr` has no `F.text` filter and
can only ever receive non-text updates — on a text update it is shadowed,
so it is not part of this text-turn step function (on a non-text update it
raises `AttributeError` on `message.text.strip()` before setting any
state, so `WAITING_FOR_SELECTOR_ATTR` is never entered).  In state `idle`
(no FSM state) no text handler matches, so the turn is ignored. -/
def stepText (s : Session) (t : PyStr) : Session × Nat :=
  match s.fsmState with
  | ParseSteps.idle => (s, 0)
  | ParseSteps.WAITING_FOR_URL => process_url s t
  | ParseSteps.WAITING_FOR_SELECTOR_NAME => process_selector_name s t
  | ParseSteps.WAITING_FOR_SELECTOR_VALUE => process_selector_value s t
  | ParseSteps.WAITING_FOR_SELECTOR_ATTR => process_selector_attr s t
  | ParseSteps.CONFIRM_SELECTORS =>
    if pyLower t = kwDone then finish_selectors s
    else if pyLower t = kwClear then clear_selectors s
    else add_next_selector s t

/-- Run a list of text turns in order, summing the extraction counts. -/
def runTurns (s : Session) : List PyStr → Session × Nat
  | [] => (s, 0)
  | t :: ts =>
    let r := stepText s t
    let r' := runTurns r.1 ts
    (r'.1, r.2 + r'.2)

/-! ## `format_results` (handlers.py, lines 288-318) -/

/-- Python `enumerate(l, i)`. -/
def enumFrom {α : Type} (i : Nat) : List α → List (Nat × α)
  | [] => []
  | a :: as => (i, a) :: enumFrom (i + 1) as

/-- `if len(item_str) > 100: item_str = item_str[:97] + "..."`. -/
def truncate_item (s : PyStr) : PyStr :=
  if 100 < s.length then s.take 97 ++ py "..." else s

/-- The line `f"  \x7bi\x7d. \x7bitem_str\x7d"`. -/
def item_line (i : Nat) (s : PyStr) : PyStr :=
  py "  " ++ Nat.toDigits 10 i ++ py ". " ++ truncate_item s

/-- The lines produced by `for i, item in enumerate(items[:5], 1)`. -/
def sample_lines (items : List PyStr) : List PyStr :=
  (enumFrom 1 (items.take 5)).map (fun p => item_line p.1 p.2)

/-- The line `f"🔹 \x7bfield_name.upper()\x7d (найдено: \x7blen(items)\x7d):"`. -/
def header_line (name : PyStr) (n : Nat) : PyStr :=
  py "🔹 " ++ pyUpper name ++ py " (найдено: " ++ Nat.toDigits 10 n ++ py "):"

/-- The line `f"  ... и еще \x7blen(items) - 5\x7d элементов"`. -/
def more_line (n : Nat) : PyStr :=
  py "  ... и еще " ++ Nat.toDigits 10 n ++ py " элементов"

/-- The lines appended for one field of the result mapping.  A field whose
item list is empty is skipped entirely (`if items:` in the source). -/
def field_lines (name : PyStr) (items : List PyStr) : List PyStr :=
  if items = [] then []
  else
    header_line name items.length :: sample_lines items
      ++ (if 5 < items.length then [more_line (items.length - 5)] else [])
      ++ [[]]

/-- The full `lines` list built by the loop in `format_results`. -/
def result_lines (results : List (PyStr × List PyStr)) : List PyStr :=
  py "📊 РЕЗУЛЬТАТЫ ПАРСИНГА:" :: ([] : PyStr)
    :: (results.map (fun p => field_lines p.1 p.2)).flatten

/-- `result_text = "\n".join(lines)` before the final truncation. -/
def rendered (results : List (PyStr × List PyStr)) : PyStr :=
  List.intercalate (py "\n") (result_lines results)

/-- The marker appended by the final truncation. -/
def trunc_marker : PyStr := py "\n\n... (сообщение обрезано, слишком много данных)"

/-- `format_results`: the empty mapping yields the fixed "no data" text;
otherwise the joined lines, hard-truncated to the first 3990 code points
plus the marker whenever their length exceeds 4000. -/
def format_results (results : List (PyStr × List PyStr)) : PyStr :=
  if results = [] then py "❌ Нет данных"
  else
    let result_text := rendered results
    if 4000 < result_text.length then result_text.take 3990 ++ trunc_marker
    else result_text

/-! ## The scraper (`bs4_scraper.py`) -/

/-- A matched element of the parsed document: `txt` models
`elem.get_text(strip=True)` and `attrs` the (string-valued) attribute
dict read by `elem.get(attr, '')`. -/
structure Elem where
  txt : PyStr
  attrs : List (PyStr × PyStr)

/-- The parsed document (`BeautifulSoup` object), reduced to what the
scraper uses: `soup.select selector` returns the matched elements in
document order, or `none` when `select` raises (invalid selector). -/
structure Doc where
  select : PyStr → Option (List Elem)

/-- The result of the HTTP GET in `fetch_page`, classified exactly as the
source's `except` arms do: `httpx.HTTPStatusError` (from
`raise_for_status`, non-2xx), `httpx.TimeoutException`,
`httpx.RequestError`, or any other `Exception`. -/
inductive FetchOutcome where
  | success (doc : Doc)
  | httpStatusError (code : Nat)
  | timeoutException
  | requestError
  | otherError

/-- `Parser.fetch_page`: every failure arm logs and falls through to
`return None`; only a successful GET yields a parsed document. -/
def fetch_page : FetchOutcome → Option Doc
  | FetchOutcome.success d => some d
  | FetchOutcome.httpStatusError _ => none
  | FetchOutcome.timeoutException => none
  | FetchOutcome.requestError => none
  | FetchOutcome.otherError => none

/-- `elem.get(attr, '')`: the attribute's value or the empty string. -/
def elemGet (e : Elem) (a : PyStr) : PyStr := (dictGet a e.attrs).getD []

/-- `Parser.extract_by_selector`: empty result on a missing soup or a
raising `select`; otherwise, per element, either the stripped attribute
value (kept when non-empty) when `attr` is truthy (`if attr:` — a `None`
or empty-string attr falls to the text branch), or the normalized text
(kept when non-empty). -/
def extract_by_selector (soup : Option Doc) (selector : PyStr)
    (attr : Option PyStr) : List PyStr :=
  match soup with
  | none => []
  | some d =>
    match d.select selector with
    | none => []
    | some elements =>
      elements.filterMap (fun elem =>
        match attr with
        | some a =>
          if a ≠ [] then
            let value := pyStrip (elemGet elem a)
            if value ≠ [] then some value else none
          else if elem.txt ≠ [] then some elem.txt else none
        | none => if elem.txt ≠ [] then some elem.txt else none)

/-- `Parser.extract_multiple`: empty dict on a missing soup; otherwise one
entry per spec field in insertion order — except that a dict-shaped field
whose `'selector'` entry is `None` or empty (`if selector:`) is skipped
with a warning. -/
def extract_multiple (soup : Option Doc)
    (selectors : List (Option PyStr × SelVal)) :
    List (Option PyStr × List PyStr) :=
  match soup with
  | none => []
  | some d =>
    selectors.foldl (fun results p =>
      match p.2 with
      | SelVal.strSel sel =>
        dictInsert p.1 (extract_by_selector (some d) sel none) results
      | SelVal.dictSel osel attr =>
        match osel with
        | some sel =>
          if sel ≠ [] then
            dictInsert p.1 (extract_by_selector (some d) sel (some attr)) results
          else results
        | none => results) []

/-- `Parser.main_parse`: fetch, and on `None` (`if not soup:`) return the
empty dict; otherwise extract.  (Python's truthiness test on a parsed
document is modeled as the `None` test; the claims below only exercise the
failure side.) -/
def main_parse (o : FetchOutcome)
    (selectors : List (Option PyStr × SelVal)) :
    List (Option PyStr × List PyStr) :=
  match fetch_page o with
  | none => []
  | some soup => extract_multiple (some soup) selectors

/-! ## Claim-side definitions -/

/-- First-use key order: the insertion order a CPython dict displays after
a sequence of assignments (claim C10's "order of first use"). -/
def firstKeys {α : Type} [DecidableEq α] (ks : List α) : List α :=
  ks.foldl (fun acc k => if k ∈ acc then acc else acc ++ [k]) []

/-- The value of the last addition for a key in a sequence of additions
(claim C10's "last write wins"). -/
def lastVal {α β : Type} [DecidableEq α] (k : α) (adds : List (α × β)) :
    Option β :=
  adds.foldl (fun acc p => if p.1 = k then some p.2 else acc) none

/-- The spec built by a sequence of dict assignments
`user_selectors[user_id][name] = value`, starting from the empty dict. -/
def buildSpec {α β : Type} [DecidableEq α] (adds : List (α × β)) :
    List (α × β) :=
  adds.foldl (fun d p => dictInsert p.1 p.2 d) []

/-! ## Concrete conversation states and inputs used by the claims -/

/-- A conversation in `WAITING_FOR_SELECTOR_VALUE` ready for the C1
scenario: field name "links" pending, empty spec. -/
def c1start : Session :=
  { fsmState := ParseSteps.WAITING_FOR_SELECTOR_VALUE,
    url := some (py "https://example.com"),
    current_selector := some (py "links"),
    selector_value := none, selector_type := none, selectors := [] }

/-- A conversation in `CONFIRM_SELECTORS` with a one-field spec. -/
def c2start : Session :=
  { fsmState := ParseSteps.CONFIRM_SELECTORS,
    url := some (py "https://example.com"),
    current_selector := some (py "titles"),
    selector_value := none, selector_type := none,
    selectors := [(some (py "titles"), SelVal.strSel (py "h1"))] }

/-- A conversation in `WAITING_FOR_SELECTOR_VALUE` with pending field
name "price" and attribute mode not requested. -/
def c4start : Session :=
  { fsmState := ParseSteps.WAITING_FOR_SELECTOR_VALUE,
    url := some (py "https://example.com"),
    current_selector := some (py "price"),
    selector_value := none, selector_type := none, selectors := [] }

/-- A conversation in `WAITING_FOR_URL`. -/
def c6start : Session :=
  { fsmState := ParseSteps.WAITING_FOR_URL,
    url := none, current_selector := none,
    selector_value := none, selector_type := none, selectors := [] }

/-- A conversation in `WAITING_FOR_SELECTOR_NAME`. -/
def c7start : Session :=
  { fsmState := ParseSteps.WAITING_FOR_SELECTOR_NAME,
    url := some (py "https://example.com"),
    current_selector := none, selector_value := none,
    selector_type := none, selectors := [] }

/-- A conversation in `CONFIRM_SELECTORS` with an empty spec. -/
def c8start : Session :=
  { fsmState := ParseSteps.CONFIRM_SELECTORS,
    url := some (py "https://example.com"),
    current_selector := some (py "titles"),
    selector_value := none, selector_type := none, selectors := [] }

/-- A 4100-character field name, long enough to push the rendered result
text over the 4000-character threshold. -/
def c3name : PyStr := List.replicate 4100 'A'

/-- An extraction result whose un-truncated rendering has 4148
characters. -/
def c3input : List (PyStr × List PyStr) := [(c3name, [py "x"])]

/-- Seven extracted values, more than the 5-sample display limit. -/
def c5items : List PyStr :=
  [py "a", py "b", py "c", py "d", py "e", py "g", py "h"]

/-- A one-field extraction result with seven values. -/
def c5input : List (PyStr × List PyStr) := [(py "f", c5items)]

end TgBot

/-! # Theorems -/

namespace TgBot

/-- Claim C1 (refuted by the source; the code contradicts its own intent).
The claim says: in `AwaitingSelectorValue`, after the reserved keyword
`'атрибут'`, the next text is stored as the pending css and the state
becomes `AwaitingAttributeName`; the following text records
`WithAttribute(pendingCss, text)`.  In the source, the handler
`process_selector_for_attr` (which would store the pending css and enter
`WAITING_FOR_SELECTOR_ATTR`) is registered after `process_selector_value`
and lacks the `F.text` filter, so aiogram's first-match dispatch gives
every text turn in `WAITING_FOR_SELECTOR_VALUE` to
`process_selector_value`, which never reads `selector_type`.  This theorem
evaluates the failing input: after `'атрибут'` the state is still
`WAITING_FOR_SELECTOR_VALUE`; the css `'a'` is then recorded as the plain
selector `Simple('a')` (state `CONFIRM_SELECTORS`, not
`WAITING_FOR_SELECTOR_ATTR`), and `'href'` becomes the next field name
instead of an attribute — no `WithAttribute` selector is ever built. -/
theorem C1_attribute_flow_dead :
    (stepText c1start kwAttr).1.fsmState = ParseSteps.WAITING_FOR_SELECTOR_VALUE
    ∧ (stepText c1start kwAttr).1.selector_type = some (py "attr")
    ∧ (runTurns c1start [kwAttr, py "a"]).1.fsmState = ParseSteps.CONFIRM_SELECTORS
    ∧ (runTurns c1start [kwAttr, py "a"]).1.selectors
        = [(some (py "links"), SelVal.strSel (py "a"))]
    ∧ (runTurns c1start [kwAttr, py "a", py "href"]).1.current_selector
        = some (py "href")
    ∧ (runTurns c1start [kwAttr, py "a", py "href"]).1.selectors
        = [(some (py "links"), SelVal.strSel (py "a"))] := by
  decide

/-- Claim C2, counterexample: at the `'готово'` turn with a non-empty
spec the code does trigger exactly one extraction and return to the idle
state with the FSM data (in particular the url) cleared, but the spec is
NOT cleared — `finish_selectors` never touches `user_selectors[user_id]` —
refuting the claimed "url, spec, and pending data cleared". -/
theorem C2_spec_not_cleared_cex :
    (stepText c2start kwDone).2 = 1
    ∧ (stepText c2start kwDone).1.fsmState = ParseSteps.idle
    ∧ (stepText c2start kwDone).1.url = none
    ∧ ¬ (stepText c2start kwDone).1.selectors = [] := by
  decide

/-- Claim C2 as amended: a `'готово'` turn in `CONFIRM_SELECTORS` with a
non-empty spec triggers exactly one extraction run and clears the FSM
session data (url and all pending fields), returning the conversation to
the idle state; the accumulated selector spec itself is left in the
per-user store unchanged. -/
theorem C2_done_extracts_once_and_clears_fsm (s : Session) (t : PyStr)
    (hs : s.fsmState = ParseSteps.CONFIRM_SELECTORS)
    (ht : pyLower t = kwDone) (hsel : s.selectors ≠ []) :
    stepText s t
      = ({ s with url := none, current_selector := none, selector_value := none,
                  selector_type := none, fsmState := ParseSteps.idle }, 1) := by
  unfold stepText
  rw [hs, ht]
  simp [finish_selectors, hsel]

/-- Witness for C2: the amended theorem applied to a concrete session. -/
theorem C2_done_extracts_once_witness :
    stepText c2start kwDone
      = ({ fsmState := ParseSteps.idle, url := none, current_selector := none,
           selector_value := none, selector_type := none,
           selectors := [(some (py "titles"), SelVal.strSel (py "h1"))] }, 1) := by
  have h := C2_done_extracts_once_and_clears_fsm c2start kwDone rfl rfl (by decide)
  rw [h]
  decide

/-- Claim C4, counterexample: `process_selector_value` stores
`message.text.strip().lower()`, not the trimmed text as sent.  For the
turn `' .Price '` the recorded selector is `Simple('.price')`, which
differs from the trimmed text `'.Price'`. -/
theorem C4_selector_lowercased_cex :
    (stepText c4start (py " .Price ")).1.selectors
        = [(some (py "price"), SelVal.strSel (py ".price"))]
    ∧ ¬ (stepText c4start (py " .Price ")).1.selectors
        = [(some (py "price"), SelVal.strSel (pyStrip (py " .Price ")))] := by
  decide

/-- Claim C4 as amended: in `WAITING_FOR_SELECTOR_VALUE`, for every text
whose strip+lower is not the reserved keyword and with attribute mode not
requested, the builder records `Simple` of the trimmed text LOWERCASED
under the pending field name (appending to the spec with dict semantics)
and transitions to `CONFIRM_SELECTORS`. -/
theorem C4_simple_selector_recorded (s : Session) (t : PyStr)
    (hs : s.fsmState = ParseSteps.WAITING_FOR_SELECTOR_VALUE)
    (ht : pyLower (pyStrip t) ≠ kwAttr)
    (_hmode : s.selector_type ≠ some (py "attr")) :
    stepText s t =
      ({ s with
           selectors := dictInsert s.current_selector
             (SelVal.strSel (pyLower (pyStrip t))) s.selectors,
           fsmState := ParseSteps.CONFIRM_SELECTORS }, 0) := by
  unfold stepText
  rw [hs]
  simp [process_selector_value, ht, ask_for_next_selector]

/-- Witness for C4: the amended theorem applied to a concrete session and
the turn `' .Price '`. -/
theorem C4_simple_selector_recorded_witness :
    stepText c4start (py " .Price ") =
      ({ c4start with
           selectors := dictInsert c4start.current_selector
             (SelVal.strSel (pyLower (pyStrip (py " .Price ")))) c4start.selectors,
           fsmState := ParseSteps.CONFIRM_SELECTORS }, 0) :=
  C4_simple_selector_recorded c4start (py " .Price ") rfl (by decide) (by decide)

/-- Claim C6, counterexample: the claim's condition "the text contains no
scheme" does not match the source, which only tests whether the stripped
text STARTS WITH `http://` or `https://`.  The input `ftp://example.com`
contains a scheme (the `://` separator is present) yet is still prefixed
with `https://`, so the claimed equivalence is false. -/
theorem C6_scheme_iff_cex :
    ¬ (((stepText c6start (py "ftp://example.com")).1.url
          = some (py "https://" ++ pyStrip (py "ftp://example.com")))
        ↔ containsSub (py "://") (py "ftp://example.com") = false) := by
  decide

/-- Claim C6 as amended: in `WAITING_FOR_URL`, the stored url equals the
trimmed text prefixed with `https://` if and only if the trimmed text does
not start with `http://` or `https://`, and equals the trimmed text
unchanged otherwise; the spec is cleared and the state transitions to
`WAITING_FOR_SELECTOR_NAME`. -/
theorem C6_url_normalization (s : Session) (t : PyStr)
    (hs : s.fsmState = ParseSteps.WAITING_FOR_URL) :
    stepText s t =
      ({ s with
           url := some
             (if kwHttp.isPrefixOf (pyStrip t) ∨ kwHttps.isPrefixOf (pyStrip t)
              then pyStrip t else kwHttps ++ pyStrip t),
           selectors := [],
           fsmState := ParseSteps.WAITING_FOR_SELECTOR_NAME }, 0) := by
  unfold stepText
  rw [hs]
  rfl

/-- Witness for C6: the amended theorem applied to a concrete session and
the turn `example.com`, which gets the `https://` prefix. -/
theorem C6_url_normalization_witness :
    stepText c6start (py "example.com") =
      ({ c6start with
           url := some (py "https://example.com"),
           selectors := [],
           fsmState := ParseSteps.WAITING_FOR_SELECTOR_NAME }, 0) := by
  have h := C6_url_normalization c6start (py "example.com") rfl
  rw [h]
  decide

/-- Claim C7, counterexample: `process_selector_name` performs no
emptiness check at all.  A whitespace-only field-name turn is accepted
(the FSM advances to `WAITING_FOR_SELECTOR_VALUE` instead of
re-prompting), the pending field name becomes the empty string, and the
following selector turn stores the empty string as a key of the spec —
refuting both the claimed rejection and the claimed invariant that an
empty-string key is never stored. -/
theorem C7_empty_name_accepted_cex :
    (stepText c7start (py "   ")).1.fsmState = ParseSteps.WAITING_FOR_SELECTOR_VALUE
    ∧ (stepText c7start (py "   ")).1.current_selector = some ([] : PyStr)
    ∧ (runTurns c7start [py "   ", py "h1"]).1.selectors
        = [(some ([] : PyStr), SelVal.strSel (py "h1"))] := by
  decide

/-- Claim C7 as amended: every field-name turn — in state
`WAITING_FOR_SELECTOR_NAME` (`process_selector_name`), or in state
`CONFIRM_SELECTORS` with a text that is neither the done nor the clear
keyword (`add_next_selector`) — stores the trimmed text as the pending
field name with no validation whatsoever: an empty-after-trim name is
accepted like any other (no re-prompt) and can subsequently become an
empty-string key in the spec. -/
theorem C7_field_name_not_validated (s : Session) (t : PyStr)
    (hs : s.fsmState = ParseSteps.WAITING_FOR_SELECTOR_NAME
          ∨ (s.fsmState = ParseSteps.CONFIRM_SELECTORS
             ∧ pyLower t ≠ kwDone ∧ pyLower t ≠ kwClear)) :
    stepText s t =
      ({ s with
           current_selector := some (pyStrip t),
           fsmState := ParseSteps.WAITING_FOR_SELECTOR_VALUE }, 0) := by
  rcases hs with h | ⟨h, hd, hc⟩
  · unfold stepText
    rw [h]
    rfl
  · unfold stepText
    rw [h, if_neg hd, if_neg hc]
    rfl

/-- Witness for C7: the amended theorem applied, in the
`CONFIRM_SELECTORS` (ReviewingSpec) case, to a whitespace-only turn —
which is not a keyword — whose trimmed form is the empty string. -/
theorem C7_field_name_not_validated_witness :
    stepText c2start (py "   ") =
      ({ c2start with
           current_selector := some (pyStrip (py "   ")),
           fsmState := ParseSteps.WAITING_FOR_SELECTOR_VALUE }, 0) :=
  C7_field_name_not_validated c2start (py "   ")
    (Or.inr ⟨rfl, by decide, by decide⟩)

/-- Claim C8 (confirmed): when the `'готово'` keyword arrives in
`CONFIRM_SELECTORS` with an empty spec, `finish_selectors` re-prompts and
moves back to `WAITING_FOR_SELECTOR_NAME`; nothing else in the session
changes — in particular the stored url is exactly the same before and
after the turn — and no extraction is triggered. -/
theorem C8_empty_spec_done_preserves_url (s : Session) (t : PyStr)
    (hs : s.fsmState = ParseSteps.CONFIRM_SELECTORS)
    (hsel : s.selectors = []) (ht : pyLower t = kwDone) :
    stepText s t = ({ s with fsmState := ParseSteps.WAITING_FOR_SELECTOR_NAME }, 0)
    ∧ (stepText s t).1.url = s.url := by
  have h : stepText s t
      = ({ s with fsmState := ParseSteps.WAITING_FOR_SELECTOR_NAME }, 0) := by
    unfold stepText
    rw [hs, ht]
    simp [finish_selectors, hsel]
  exact ⟨h, by rw [h]⟩

/-- Witness for C8: the theorem applied to a concrete empty-spec session. -/
theorem C8_empty_spec_done_preserves_url_witness :
    stepText c8start kwDone
      = ({ c8start with fsmState := ParseSteps.WAITING_FOR_SELECTOR_NAME }, 0)
    ∧ (stepText c8start kwDone).1.url = c8start.url :=
  C8_empty_spec_done_preserves_url c8start kwDone rfl rfl rfl

/-- Claim C9 (confirmed): for every url and every fetch failure — non-2xx
HTTP status (`raise_for_status`), timeout, network/connection error, or
any other exception — `fetch_page` returns `None` to the caller instead
of raising (every `except` arm logs and falls through to `return None`),
and `main_parse` then returns the empty mapping. -/
theorem C9_fetch_failure_empty_result (o : FetchOutcome)
    (selectors : List (Option PyStr × SelVal))
    (h : ∀ d, o ≠ FetchOutcome.success d) :
    fetch_page o = none ∧ main_parse o selectors = [] := by
  cases o with
  | success d => exact absurd rfl (h d)
  | httpStatusError code => exact ⟨rfl, rfl⟩
  | timeoutException => exact ⟨rfl, rfl⟩
  | requestError => exact ⟨rfl, rfl⟩
  | otherError => exact ⟨rfl, rfl⟩

/-- Witness for C9: the theorem applied to a timeout with a one-field
spec. -/
theorem C9_fetch_failure_empty_result_witness :
    fetch_page FetchOutcome.timeoutException = none
    ∧ main_parse FetchOutcome.timeoutException
        [(some (py "titles"), SelVal.strSel (py "h1"))] = [] :=
  C9_fetch_failure_empty_result FetchOutcome.timeoutException
    [(some (py "titles"), SelVal.strSel (py "h1"))] (fun _ h => nomatch h)

/-! ## Helper lemmas for the formatter claims (C3, C5) -/

lemma enumFrom_length {α : Type} (i : Nat) (l : List α) :
    (enumFrom i l).length = l.length := by
  induction l generalizing i with
  | nil => rfl
  | cons a as ih => simp [enumFrom, ih]

lemma intercalate_five_length (sep a b c d e : PyStr) :
    (List.intercalate sep [a, b, c, d, e]).length =
      a.length + b.length + c.length + d.length + e.length + 4 * sep.length := by
  simp [List.intercalate, List.intersperse, List.length_append]
  omega

lemma c3header_len : (header_line c3name 1).length = 4116 := by
  have h0 : (py "🔹 ").length = 2 := rfl
  have h1 : (py " (найдено: ").length = 11 := rfl
  have h2 : (Nat.toDigits 10 1).length = 1 := rfl
  have h3 : (py "):").length = 2 := rfl
  have h4 : (pyUpper c3name).length = 4100 := by
    unfold pyUpper c3name
    rw [List.length_map, List.length_replicate]
  simp only [header_line, List.length_append, h0, h1, h2, h3, h4]

lemma c3rendered_len : (rendered c3input).length = 4148 := by
  have hl : result_lines c3input =
      [py "📊 РЕЗУЛЬТАТЫ ПАРСИНГА:", ([] : PyStr), header_line c3name 1,
       py "  1. x", ([] : PyStr)] := rfl
  have e0 : (py "📊 РЕЗУЛЬТАТЫ ПАРСИНГА:").length = 22 := rfl
  have e1 : (py "  1. x").length = 6 := rfl
  have e2 : (py "\n").length = 1 := rfl
  unfold rendered
  rw [hl, intercalate_five_length, e0, e1, e2, c3header_len]
  simp

lemma format_results_eq (r : List (PyStr × List PyStr)) (hne : r ≠ []) :
    format_results r =
      if 4000 < (rendered r).length then (rendered r).take 3990 ++ trunc_marker
      else rendered r := by
  unfold format_results
  rw [if_neg hne]

lemma length_take_append_marker (r : List (PyStr × List PyStr))
    (h4 : 4000 < (rendered r).length) :
    ((rendered r).take 3990 ++ trunc_marker).length = 4038 := by
  rw [List.length_append, List.length_take]
  have hm : trunc_marker.length = 48 := rfl
  omega

/-- Claim C3, counterexample: `format` can emit MORE than 4000
characters.  The truncation keeps the first 3990 characters and appends a
48-character marker, so any over-long rendering yields 4038 characters.
For the concrete result `c3input` (whose un-truncated rendering has 4148
characters) the formatted text is not within the claimed 4000-character
bound. -/
theorem C3_format_exceeds_4000_cex :
    ¬ ((format_results c3input).length ≤ 4000) := by
  have hne : c3input ≠ [] := by simp [c3input]
  have h4 : 4000 < (rendered c3input).length := by rw [c3rendered_len]; omega
  have he := format_results_eq c3input hne
  rw [if_pos h4] at he
  have hl := length_take_append_marker c3input h4
  rw [he, hl]
  omega

/-- Claim C3 as amended: `format_results` never emits more than 4038
characters (3990 kept characters plus the 48-character marker), and
whenever the un-truncated rendering exceeds 4000 characters the returned
string ends with the explicit truncation marker and has exactly 4038
characters. -/
theorem C3_format_length_bound (r : List (PyStr × List PyStr)) :
    (format_results r).length ≤ 4038
    ∧ (4000 < (rendered r).length →
        trunc_marker <:+ format_results r
        ∧ (format_results r).length = 4038) := by
  by_cases hr : r = []
  · subst hr
    refine ⟨?_, ?_⟩
    · have h12 : (format_results ([] : List (PyStr × List PyStr))).length = 12 := rfl
      omega
    · intro h4
      have h23 : (rendered ([] : List (PyStr × List PyStr))).length = 23 := rfl
      omega
  · have he := format_results_eq r hr
    by_cases h4 : 4000 < (rendered r).length
    · rw [if_pos h4] at he
      have hl := length_take_append_marker r h4
      refine ⟨?_, fun _ => ⟨?_, ?_⟩⟩
      · rw [he, hl]
      · rw [he]
        exact ⟨(rendered r).take 3990, rfl⟩
      · rw [he, hl]
    · rw [if_neg h4] at he
      refine ⟨?_, fun h => absurd h h4⟩
      rw [he]
      omega

/-- Witness for C3: the amended theorem applied to the concrete
over-long result `c3input`. -/
theorem C3_format_length_bound_witness :
    4000 < (rendered c3input).length
    ∧ trunc_marker <:+ format_results c3input
    ∧ (format_results c3input).length = 4038 := by
  have h4 : 4000 < (rendered c3input).length := by rw [c3rendered_len]; omega
  exact ⟨h4, ((C3_format_length_bound c3input).2 h4).1,
         ((C3_format_length_bound c3input).2 h4).2⟩

/-- Claim C5, counterexample: a field whose value sequence is empty is
NOT rendered — `format_results` skips it entirely (`if items:`), so for
the result `\x7b"a": []\x7d` no header line for the field appears among the
rendered lines, refuting "renders every field of the mapping (including
fields whose value sequence is empty)". -/
theorem C5_empty_field_skipped_cex :
    field_lines (py "a") [] = []
    ∧ ¬ (header_line (py "a") 0 ∈ result_lines [(py "a", ([] : List PyStr))]) := by
  decide

/-- Claim C5 as amended: `format_results` renders every field whose
value sequence is NON-empty as a header line with the field name and
count (the first line of the field's block, which appears inside the
rendered lines), followed by at most 5 sample values — each sample value
hard-truncated to at most 100 characters, ending in the ellipsis marker
when the value is longer than 100 — and a remainder line stating the
exact number of omitted items whenever more than 5 matched; fields with
an empty value sequence are omitted from the rendering entirely. -/
theorem C5_field_rendering (r : List (PyStr × List PyStr)) (name : PyStr)
    (items : List PyStr) (hmem : (name, items) ∈ r) (hne : items ≠ []) :
    (field_lines name items).head? = some (header_line name items.length)
    ∧ (sample_lines items).length = min items.length 5
    ∧ (∀ s ∈ items, (truncate_item s).length ≤ 100
        ∧ (100 < s.length → py "..." <:+ truncate_item s))
    ∧ (5 < items.length → more_line (items.length - 5) ∈ field_lines name items)
    ∧ field_lines name items <:+: result_lines r := by
  refine ⟨?_, ?_, ?_, ?_, ?_⟩
  · unfold field_lines
    rw [if_neg hne]
    rfl
  · unfold sample_lines
    rw [List.length_map, enumFrom_length, List.length_take]
    exact Nat.min_comm 5 items.length
  · intro s _hs
    constructor
    · unfold truncate_item
      by_cases h : 100 < s.length
      · rw [if_pos h, List.length_append, List.length_take]
        have h3 : (py "...").length = 3 := rfl
        omega
      · rw [if_neg h]
        omega
    · intro h100
      unfold truncate_item
      rw [if_pos h100]
      exact ⟨s.take 97, rfl⟩
  · intro h5
    unfold field_lines
    rw [if_neg hne, if_pos h5]
    simp [List.mem_append, List.mem_cons]
  · have h1 : field_lines name items ∈ r.map (fun p => field_lines p.1 p.2) :=
      List.mem_map_of_mem _ hmem
    have h2 : field_lines name items <:+: (r.map (fun p => field_lines p.1 p.2)).flatten :=
      List.infix_of_mem_flatten h1
    have h3 : (r.map (fun p => field_lines p.1 p.2)).flatten <:+ result_lines r :=
      ⟨[py "📊 РЕЗУЛЬТАТЫ ПАРСИНГА:", ([] : PyStr)], rfl⟩
    exact h2.trans h3.isInfix

/-- Witness for C5: the amended theorem applied to a one-field result
with seven extracted values. -/
theorem C5_field_rendering_witness :
    (field_lines (py "f") c5items).head? = some (header_line (py "f") c5items.length)
    ∧ (sample_lines c5items).length = min c5items.length 5
    ∧ (∀ s ∈ c5items, (truncate_item s).length ≤ 100
        ∧ (100 < s.length → py "..." <:+ truncate_item s))
    ∧ (5 < c5items.length → more_line (c5items.length - 5) ∈ field_lines (py "f") c5items)
    ∧ field_lines (py "f") c5items <:+: result_lines c5input :=
  C5_field_rendering c5input (py "f") c5items (by decide) (by decide)

/-! ## Helper lemmas for the spec-dictionary claim (C10) -/

lemma dictGet_dictInsert {α β : Type} [DecidableEq α] (q k : α) (v : β)
    (d : List (α × β)) :
    dictGet q (dictInsert k v d) = if q = k then some v else dictGet q d := by
  induction d with
  | nil =>
    by_cases h : q = k
    · subst h
      simp [dictInsert, dictGet]
    · have h' : ¬ (k = q) := fun hh => h hh.symm
      simp [dictInsert, dictGet, h, h']
  | cons p rest ih =>
    obtain ⟨k', v'⟩ := p
    by_cases hk : k' = k
    · subst hk
      by_cases hq : q = k'
      · subst hq
        simp [dictInsert, dictGet]
      · have hq' : ¬ (k' = q) := fun hh => hq hh.symm
        simp [dictInsert, dictGet, hq, hq']
    · simp only [dictInsert, if_neg hk, dictGet]
      rw [ih]
      by_cases hq : k' = q
      · have hqk : ¬ (q = k) := fun hh => hk (hq.trans hh)
        simp [hq, hqk]
      · simp [hq]

lemma keys_dictInsert {α β : Type} [DecidableEq α] (k : α) (v : β)
    (d : List (α × β)) :
    (dictInsert k v d).map Prod.fst =
      if k ∈ d.map Prod.fst then d.map Prod.fst else d.map Prod.fst ++ [k] := by
  induction d with
  | nil => simp [dictInsert]
  | cons p rest ih =>
    obtain ⟨k', v'⟩ := p
    by_cases hk : k' = k
    · subst hk
      simp [dictInsert]
    · simp only [dictInsert, if_neg hk, List.map, ih]
      by_cases hmem : k ∈ rest.map Prod.fst
      · simp [hmem, List.mem_cons]
      · have hne : ¬ (k = k') := fun h => hk h.symm
        simp [hmem, List.mem_cons, hne]

lemma keys_foldl {α β : Type} [DecidableEq α] (adds : List (α × β)) :
    ∀ d : List (α × β),
      ((adds.foldl (fun d p => dictInsert p.1 p.2 d) d).map Prod.fst)
        = (adds.map Prod.fst).foldl
            (fun acc k => if k ∈ acc then acc else acc ++ [k]) (d.map Prod.fst) := by
  induction adds with
  | nil => intro d; rfl
  | cons p rest ih =>
    intro d
    simp only [List.foldl, List.map]
    rw [ih, keys_dictInsert]

lemma get_foldl {α β : Type} [DecidableEq α] (k : α) (adds : List (α × β)) :
    ∀ d : List (α × β),
      dictGet k (adds.foldl (fun d p => dictInsert p.1 p.2 d) d)
        = adds.foldl (fun acc p => if p.1 = k then some p.2 else acc) (dictGet k d) := by
  induction adds with
  | nil => intro d; rfl
  | cons p rest ih =>
    intro d
    simp only [List.foldl]
    rw [ih, dictGet_dictInsert]
    have hif : (if k = p.1 then some p.2 else dictGet k d)
        = (if p.1 = k then some p.2 else dictGet k d) := by
      by_cases h : k = p.1
      · simp [h]
      · have h' : ¬ (p.1 = k) := fun hh => h hh.symm
        simp [h, h']
    rw [hif]

/-- Claim C10 (confirmed): for every sequence of selector additions
(dict assignments `user_selectors[user_id][name] = value`), the resulting
spec maps each field name to the selector of its last addition, and the
spec's key order is the order of first use — an overwritten field keeps
the position of its first addition and all other fields keep their order
of first use. -/
theorem C10_last_write_wins_first_position
    (adds : List (Option PyStr × SelVal)) :
    (buildSpec adds).map Prod.fst = firstKeys (adds.map Prod.fst)
    ∧ ∀ k, dictGet k (buildSpec adds) = lastVal k adds := by
  constructor
  · have h := keys_foldl adds ([] : List (Option PyStr × SelVal))
    simpa [buildSpec, firstKeys] using h
  · intro k
    have h := get_foldl k adds ([] : List (Option PyStr × SelVal))
    simpa [buildSpec, lastVal, dictGet] using h

end TgBot
